import Mathlib

/-!
Shallow embedding of the 2048 engine in `src/2048.py`.

Randomness (`random.choice`) is modelled by an explicit stream of natural
numbers that is consumed draw by draw: `random.choice(lst)` takes one draw
`n` from the stream and returns `lst[n % len(lst)]` (for a nonempty list
this is always an element of the list, which is the only property the
claims depend on).

Python's `grid[i][j]` accesses are always guarded by bounds checks
`0 <= i < size` in the source; coordinates produced by `get_new_position`
may be negative, so they live in `Int` and are converted to `Nat` only
after the guard, exactly as the guard makes safe in the source.
-/

-- ==================== BLOCK (TILE) ====================

structure Block where
  value : Nat
  position : Nat × Nat
deriving DecidableEq

/-- `Block.update_value`: double the value when merged (src line 13-15). -/
def Block.update_value (b : Block) : Block :=
  { b with value := b.value * 2 }

-- ==================== RANDOM SOURCE ====================

/-- Take one draw from the random stream. -/
def draw : List Nat → Nat × List Nat
  | [] => (0, [])
  | x :: xs => (x, xs)

/-- Model of `random.choice`: consumes one draw, returns an element of the
list (index is the draw modulo the length). -/
def randomChoice {α : Type} [Inhabited α] (l : List α) (r : List Nat) : α × List Nat :=
  let p := draw r
  (l.getD (p.1 % l.length) default, p.2)

/-- `BlockFactory.create_block` (src lines 23-25): a block at `(x, y)` whose
value is a random choice from `[2, 4]`. -/
def BlockFactory.create_block (x y : Nat) (r : List Nat) : Block × List Nat :=
  let p := randomChoice [2, 4] r
  (Block.mk p.1 (x, y), p.2)

-- ==================== BOARD CELL HELPERS ====================

/-- Read cell `(i, j)` of a list-of-lists board, with a default. -/
def getC {α : Type} (g : List (List α)) (d : α) (i j : Nat) : α :=
  (g.getD i []).getD j d

/-- Write cell `(i, j)` of a list-of-lists board (no-op out of bounds,
like `List.set`). -/
def setC {α : Type} (g : List (List α)) (i j : Nat) (v : α) : List (List α) :=
  g.set i ((g.getD i []).set j v)

-- ==================== GRID ====================

structure Grid where
  size : Nat
  grid : List (List (Option Block))
deriving DecidableEq

/-- The board is `size` rows of `size` cells, as `Grid.__init__` builds it. -/
def Grid.Shape (g : Grid) : Prop :=
  g.grid.length = g.size ∧ ∀ row ∈ g.grid, row.length = g.size

/-- The empty-cell coordinate list of `Grid.spawn_new_tile` (src line 81):
`[(i, j) for i in range(size) for j in range(size) if grid[i][j] is None]`. -/
def Grid.empty_positions (g : Grid) : List (Nat × Nat) :=
  (List.range g.size).flatMap fun i =>
    (List.range g.size).filterMap fun j =>
      if getC g.grid none i j = none then some (i, j) else none

/-- `Grid.spawn_new_tile` (src lines 79-84): place a new tile at a random
empty position; no-op (consuming no draw) when the grid is full. -/
def Grid.spawn_new_tile (g : Grid) (r : List Nat) : Grid × List Nat :=
  let eps := g.empty_positions
  if eps.isEmpty then (g, r)
  else
    let p := randomChoice eps r
    let q := BlockFactory.create_block p.1.1 p.1.2 p.2
    (⟨g.size, setC g.grid p.1.1 p.1.2 (some q.1)⟩, q.2)

/-- `Grid.get_new_position` (src lines 98-108); falls through to `(i, j)`
for an unknown direction string. -/
def Grid.get_new_position (i j : Int) (direction : String) : Int × Int :=
  if direction = "up" then (i - 1, j)
  else if direction = "down" then (i + 1, j)
  else if direction = "left" then (i, j - 1)
  else if direction = "right" then (i, j + 1)
  else (i, j)

/-- `Grid.is_valid_move` (src lines 86-96): some occupied cell has an
in-bounds neighbour one step along `direction` that is empty or holds an
equal value. -/
def Grid.is_valid_move (g : Grid) (direction : String) : Bool :=
  (List.range g.size).any fun i =>
    (List.range g.size).any fun j =>
      match getC g.grid none i j with
      | none => false
      | some b =>
        let p := Grid.get_new_position i j direction
        if 0 ≤ p.1 ∧ p.1 < (g.size : Int) ∧ 0 ≤ p.2 ∧ p.2 < (g.size : Int) then
          match getC g.grid none p.1.toNat p.2.toNat with
          | none => true
          | some nb => nb.value == b.value
        else false

/-- The `while` loop of `shift_and_merge` (src lines 124-127): slide the
tile at `(i, j)` one step along `direction` while the next cell is
in-bounds and empty.  A tile can take at most `size` steps, so calling
with `fuel = size` computes the loop's fixpoint. -/
def slideLoop (direction : String) (size : Nat) :
    Nat → List (List (Option Block)) → Nat → Nat →
    List (List (Option Block)) × Nat × Nat
  | 0, grid, i, j => (grid, i, j)
  | fuel + 1, grid, i, j =>
    let p := Grid.get_new_position i j direction
    if (0 ≤ p.1 ∧ p.1 < (size : Int) ∧ 0 ≤ p.2 ∧ p.2 < (size : Int)) ∧
        getC grid none p.1.toNat p.2.toNat = none then
      slideLoop direction size fuel
        (setC (setC grid p.1.toNat p.2.toNat (getC grid none i j)) i j none)
        p.1.toNat p.2.toNat
    else (grid, i, j)

/-- State threaded through the inner loop of `shift_and_merge`: the board,
the `merged` flag array, and the current value of the loop variable `i`.
The source's `i, j = ni, nj` rebinds the outer loop variable `i`, and that
rebinding persists across the remaining iterations of the inner `j` loop
(the inner `for` reassigns only `j`), so `i` must be part of the state. -/
def PassState : Type :=
  List (List (Option Block)) × List (List Bool) × Nat

/-- The body of the inner loop of `shift_and_merge` (src lines 119-136)
for one iterator value `j`, with the current (possibly rebound) `i` taken
from the state: skip empty cells, slide the tile, then merge into the
next cell when it is in-bounds, occupied with an equal value, and not
already the target of a merge this pass.  (The second `getC` of the merge
step reads the slid tile's own cell, which in the source is the
always-occupied `self.grid[i][j]` after the while loop's rebinding.) -/
def processCell (direction : String) (size : Nat) (st : PassState) (j : Nat) :
    PassState :=
  let i := st.2.2
  match getC st.1 none i j with
  | none => st
  | some _ =>
    let s := slideLoop direction size size st.1 i j
    let grid1 := s.1
    let ci := s.2.1
    let cj := s.2.2
    let p := Grid.get_new_position ci cj direction
    if 0 ≤ p.1 ∧ p.1 < (size : Int) ∧ 0 ≤ p.2 ∧ p.2 < (size : Int) then
      match getC grid1 none p.1.toNat p.2.toNat, getC grid1 none ci cj with
      | some nb, some cb =>
        if nb.value = cb.value ∧ getC st.2.1 false p.1.toNat p.2.toNat = false then
          (setC (setC grid1 p.1.toNat p.2.toNat (some nb.update_value)) ci cj none,
           setC st.2.1 p.1.toNat p.2.toNat true, ci)
        else (grid1, st.2.1, ci)
      | _, _ => (grid1, st.2.1, ci)
    else (grid1, st.2.1, ci)

/-- `range_order` (src line 116): ascending for "down"/"right", descending
otherwise. -/
def rangeOrder (size : Nat) (direction : String) : List Nat :=
  if direction = "down" ∨ direction = "right" then List.range size
  else (List.range size).reverse

/-- The mutation pass of `shift_and_merge` (src lines 115-136): the double
loop over `range_order`, threading the board and the `merged` flag array;
each outer iteration reloads `i` from the iterator, each inner iteration
may leave a rebound `i` behind for the next one. -/
def Grid.mergePass (g : Grid) (direction : String) : Grid :=
  let ord := rangeOrder g.size direction
  let st := ord.foldl
      (fun st i =>
        let s := ord.foldl (processCell direction g.size) (st.1, st.2, i)
        (s.1, s.2.1))
      (g.grid, List.replicate g.size (List.replicate g.size false))
  ⟨g.size, st.1⟩

/-- `Grid.shift_and_merge` (src lines 110-139): validity gate, merge pass,
then one spawn; returns whether a move happened together with the updated
grid and random stream. -/
def Grid.shift_and_merge (g : Grid) (direction : String) (r : List Nat) :
    Bool × Grid × List Nat :=
  if g.is_valid_move direction then
    let p := (g.mergePass direction).spawn_new_tile r
    (true, p.1, p.2)
  else (false, g, r)

/-- `Grid.__init__` (src lines 73-77): an empty `size × size` board
followed by two spawns. -/
def Grid.new (size : Nat) (r : List Nat) : Grid × List Nat :=
  let g0 : Grid := ⟨size, List.replicate size (List.replicate size none)⟩
  let p := g0.spawn_new_tile r
  p.1.spawn_new_tile p.2

-- ==================== GAME CONTROLLER ====================

/-- The three observable outcomes of `GameController.play_move`:
"Invalid move" (unknown direction), a successful move, and
"Move not possible!". -/
inductive Outcome
  | invalid
  | moved
  | notPossible
deriving DecidableEq

/-- `GameController.play_move` (src lines 162-171): the dispatch table has
exactly the keys "up", "down", "left", "right"; an unknown direction is
reported without touching the grid; otherwise the strategy object calls
`shift_and_merge` with that direction. -/
def GameController.play_move (g : Grid) (direction : String) (r : List Nat) :
    Outcome × Grid × List Nat :=
  if direction = "up" ∨ direction = "down" ∨ direction = "left" ∨ direction = "right" then
    let p := g.shift_and_merge direction r
    (if p.1 then Outcome.moved else Outcome.notPossible, p.2.1, p.2.2)
  else (Outcome.invalid, g, r)

-- ==================== OBSERVATIONS FOR THE CLAIMS ====================

/-- The value held in a cell, 0 for an empty slot (as `print_grid` shows it). -/
def cellVal : Option Block → Nat
  | none => 0
  | some b => b.value

/-- A row as its list of displayed values. -/
def rowVals (row : List (Option Block)) : List Nat := row.map cellVal

/-- Row `i` of a grid as displayed values. -/
def Grid.rowValsAt (g : Grid) (i : Nat) : List Nat := rowVals (g.grid.getD i [])

/-- Total of all tile values on the board. -/
def boardSum (grid : List (List (Option Block))) : Nat :=
  (grid.map fun row => (rowVals row).sum).sum

/-- Number of occupied slots. -/
def occupiedCount (grid : List (List (Option Block))) : Nat :=
  (grid.map fun row => row.countP fun c => c.isSome).sum

/-- Number of empty slots. -/
def emptyCount (grid : List (List (Option Block))) : Nat :=
  (grid.map fun row => row.countP fun c => c.isNone).sum

/-- An `n × n` list-of-lists board. -/
def ShapeB {α : Type} (n : Nat) (g : List (List α)) : Prop :=
  g.length = n ∧ ∀ row ∈ g, row.length = n

/-- Contribution of one cell to `occupiedCount`. -/
def cntSome (c : Option Block) : Nat := if c.isSome then 1 else 0

/-- The position/slot consistency invariant of the spec: every tile stored
in slot `(i, j)` carries `(i, j)` in its position field. -/
def PosInv (g : Grid) : Prop :=
  ∀ i j b, getC g.grid none i j = some b → b.position = (i, j)

-- ==================== CONCRETE BOARDS USED BY THE CLAIMS ====================

/-- An empty row of four slots. -/
def emptyRow4 : List (Option Block) := [none, none, none, none]

/-- The 4×4 grid whose row 0 holds tiles `[2, 2, 2, 2]` and whose other
slots are all empty.  Tile position fields carry the canonical slot
coordinates, exactly as the spawn operation stores them; the move
algorithm never reads them. -/
def gRow2222 : Grid :=
  ⟨4, [[some ⟨2, (0, 0)⟩, some ⟨2, (0, 1)⟩, some ⟨2, (0, 2)⟩, some ⟨2, (0, 3)⟩],
       emptyRow4, emptyRow4, emptyRow4]⟩

/-- The 4×4 grid whose row 0 holds tiles `[2, 2, 2, 0]` and whose other
slots are all empty (canonical position fields). -/
def gRow2220 : Grid :=
  ⟨4, [[some ⟨2, (0, 0)⟩, some ⟨2, (0, 1)⟩, some ⟨2, (0, 2)⟩, none],
       emptyRow4, emptyRow4, emptyRow4]⟩

/-- The 4×4 grid whose row 0 holds tiles `[2, 0, 2, 0]` and whose other
slots are all empty (canonical position fields). -/
def gRow2020 : Grid :=
  ⟨4, [[some ⟨2, (0, 0)⟩, none, some ⟨2, (0, 2)⟩, none],
       emptyRow4, emptyRow4, emptyRow4]⟩

/-- The 4×4 grid whose row 0 holds tiles `[2, 4, 8, 16]` and whose other
slots are all empty (canonical position fields). -/
def gRow24816 : Grid :=
  ⟨4, [[some ⟨2, (0, 0)⟩, some ⟨4, (0, 1)⟩, some ⟨8, (0, 2)⟩, some ⟨16, (0, 3)⟩],
       emptyRow4, emptyRow4, emptyRow4]⟩

/-- The 4×4 grid whose row 0 holds tiles `[2, 2, 0, 0]` and whose other
slots are all empty (canonical position fields). -/
def gRow2200 : Grid :=
  ⟨4, [[some ⟨2, (0, 0)⟩, some ⟨2, (0, 1)⟩, none, none],
       emptyRow4, emptyRow4, emptyRow4]⟩

/-- A 4×4 grid with a single tile of value 2 in slot `(0, 1)`, whose
stored position field is `(0, 1)` as the spawn operation would set it. -/
def gLoneTile : Grid :=
  ⟨4, [[none, some ⟨2, (0, 1)⟩, none, none], emptyRow4, emptyRow4, emptyRow4]⟩

-- ==================== LIST HELPER LEMMAS ====================

section ListHelpers

variable {α : Type}

theorem getD_oob : ∀ (l : List α) (i : Nat) (d : α), l.length ≤ i → l.getD i d = d := by
  intro l
  induction l with
  | nil => intro i d _; cases i <;> rfl
  | cons a t ih =>
    intro i d h
    cases i with
    | zero => simp at h
    | succ k => exact ih k d (Nat.le_of_succ_le_succ h)

theorem getD_lt : ∀ (l : List α) (i : Nat) (d : α) (h : i < l.length), l.getD i d = l.get ⟨i, h⟩ := by
  intro l
  induction l with
  | nil => intro i d h; simp at h
  | cons a t ih =>
    intro i d h
    cases i with
    | zero => rfl
    | succ k => exact ih k d (Nat.lt_of_succ_lt_succ h)

theorem getD_mem : ∀ (l : List α) (i : Nat) (d : α), i < l.length → l.getD i d ∈ l := by
  intro l i d h
  rw [getD_lt l i d h]
  exact l.get_mem i h

theorem getD_set_self : ∀ (l : List α) (i : Nat) (v d : α), i < l.length → (l.set i v).getD i d = v := by
  intro l
  induction l with
  | nil => intro i v d h; simp at h
  | cons a t ih =>
    intro i v d h
    cases i with
    | zero => rfl
    | succ k => exact ih k v d (Nat.lt_of_succ_lt_succ h)

theorem getD_set_ne : ∀ (l : List α) (i i' : Nat) (v d : α), i ≠ i' → (l.set i v).getD i' d = l.getD i' d := by
  intro l
  induction l with
  | nil => intro i i' v d _; rfl
  | cons a t ih =>
    intro i i' v d h
    cases i with
    | zero =>
      cases i' with
      | zero => exact absurd rfl h
      | succ k' => rfl
    | succ k =>
      cases i' with
      | zero => rfl
      | succ k' => exact ih k k' v d (fun hc => h (by rw [hc]))

theorem set_oob : ∀ (l : List α) (i : Nat) (v : α), l.length ≤ i → l.set i v = l := by
  intro l
  induction l with
  | nil => intro i v _; rfl
  | cons a t ih =>
    intro i v h
    cases i with
    | zero => simp at h
    | succ k => simpa using ih k v (Nat.le_of_succ_le_succ h)

theorem mem_of_mem_set : ∀ (l : List α) (i : Nat) (v a : α), a ∈ l.set i v → a ∈ l ∨ a = v := by
  intro l
  induction l with
  | nil => intro i v a h; simp at h
  | cons b t ih =>
    intro i v a h
    cases i with
    | zero =>
      rcases List.mem_cons.1 h with h1 | h1
      · exact Or.inr h1
      · exact Or.inl (List.mem_cons_of_mem _ h1)
    | succ k =>
      rcases List.mem_cons.1 h with h1 | h1
      · exact Or.inl (h1 ▸ List.mem_cons_self _ _)
      · rcases ih k v a h1 with h2 | h2
        · exact Or.inl (List.mem_cons_of_mem _ h2)
        · exact Or.inr h2

theorem getD_replicate : ∀ (n i : Nat) (a d : α), (List.replicate n a).getD i d = if i < n then a else d := by
  intro n
  induction n with
  | zero => intro i a d; cases i <;> rfl
  | succ m ih =>
    intro i a d
    cases i with
    | zero => simp [List.replicate]
    | succ k => simpa [List.replicate, Nat.succ_lt_succ_iff] using ih k a d

end ListHelpers

-- ==================== BOARD SHAPE AND CELL LEMMAS ====================

theorem Grid.shape_iff (g : Grid) : g.Shape ↔ ShapeB g.size g.grid := Iff.rfl

theorem ShapeB.rowLen {α : Type} {n : Nat} {g : List (List α)} (h : ShapeB n g)
    {i : Nat} (hi : i < n) : (g.getD i []).length = n :=
  h.2 _ (getD_mem _ _ _ (by rw [h.1]; exact hi))

theorem shapeB_setC {α : Type} {n : Nat} {g : List (List α)} (h : ShapeB n g)
    (i j : Nat) (v : α) : ShapeB n (setC g i j v) := by
  by_cases hi : i < g.length
  · constructor
    · simp only [setC, List.length_set]; exact h.1
    · intro row hr
      simp only [setC] at hr
      rcases mem_of_mem_set _ _ _ _ hr with h1 | h1
      · exact h.2 _ h1
      · rw [h1, List.length_set]
        exact h.rowLen (by rw [← h.1]; exact hi)
  · simp only [setC]
    rw [set_oob _ _ _ (Nat.le_of_not_lt hi)]
    exact h

theorem getC_setC_self {α : Type} {g : List (List α)} {d : α} {i j : Nat} {v : α}
    (hi : i < g.length) (hj : j < (g.getD i []).length) :
    getC (setC g i j v) d i j = v := by
  unfold getC setC
  rw [getD_set_self _ _ _ _ hi, getD_set_self _ _ _ _ hj]

theorem getC_setC_ne {α : Type} {g : List (List α)} {d : α} {i j i' j' : Nat} {v : α}
    (h : ¬(i' = i ∧ j' = j)) : getC (setC g i j v) d i' j' = getC g d i' j' := by
  unfold getC setC
  by_cases hii : i' = i
  · subst hii
    have hjj : j' ≠ j := fun hc => h ⟨rfl, hc⟩
    by_cases hi : i' < g.length
    · rw [getD_set_self _ _ _ _ hi, getD_set_ne _ _ _ _ _ (fun hc => hjj hc.symm)]
    · rw [set_oob _ _ _ (Nat.le_of_not_lt hi)]
  · rw [getD_set_ne _ _ _ _ _ (fun hc => hii hc.symm)]

theorem getC_oob {α : Type} {n : Nat} {g : List (List α)} (h : ShapeB n g) {i j : Nat}
    (hij : ¬(i < n ∧ j < n)) (d : α) : getC g d i j = d := by
  unfold getC
  by_cases hi : i < n
  · have hj : ¬ j < n := fun hc => hij ⟨hi, hc⟩
    exact getD_oob _ _ _ (by rw [h.rowLen hi]; exact Nat.le_of_not_lt hj)
  · have h0 : g.getD i [] = [] := getD_oob _ _ _ (by rw [h.1]; exact Nat.le_of_not_lt hi)
    rw [h0]
    exact getD_oob _ _ _ (by simp)

/-- A cell that reads as occupied lies in bounds. -/
theorem getC_some_bounds {n : Nat} {g : List (List (Option Block))} (h : ShapeB n g)
    {i j : Nat} {b : Block} (hc : getC g none i j = some b) : i < n ∧ j < n := by
  by_contra hij
  rw [getC_oob h hij] at hc
  exact Option.noConfusion hc

-- ==================== SUM AND COUNT LEMMAS ====================

theorem rowSum_set : ∀ (row : List (Option Block)) (j : Nat) (v : Option Block), j < row.length →
    (rowVals (row.set j v)).sum + cellVal (row.getD j none) = (rowVals row).sum + cellVal v := by
  intro row
  induction row with
  | nil => intro j v h; simp at h
  | cons a t ih =>
    intro j v h
    cases j with
    | zero => simp [rowVals]; omega
    | succ k =>
      have hh := ih k v (Nat.lt_of_succ_lt_succ h)
      simp only [List.set_cons_succ, rowVals, List.map_cons, List.sum_cons, List.getD_cons_succ]
      simp only [rowVals] at hh
      omega

theorem rowCnt_set : ∀ (row : List (Option Block)) (j : Nat) (v : Option Block), j < row.length →
    (row.set j v).countP (fun c => c.isSome) + cntSome (row.getD j none) =
      row.countP (fun c => c.isSome) + cntSome v := by
  intro row
  induction row with
  | nil => intro j v h; simp at h
  | cons a t ih =>
    intro j v h
    cases j with
    | zero =>
      cases a <;> cases v <;> simp [cntSome, List.countP_cons]
    | succ k =>
      have hh := ih k v (Nat.lt_of_succ_lt_succ h)
      simp only [List.set_cons_succ, List.countP_cons, List.getD_cons_succ]
      omega

theorem boardSum_setC : ∀ (g : List (List (Option Block))) (i j : Nat) (v : Option Block),
    i < g.length → j < (g.getD i []).length →
    boardSum (setC g i j v) + cellVal (getC g none i j) = boardSum g + cellVal v := by
  intro g
  induction g with
  | nil => intro i j v h _; simp at h
  | cons row t ih =>
    intro i j v hi hj
    cases i with
    | zero =>
      have h0 : setC (row :: t) 0 j v = (row.set j v) :: t := rfl
      have h1 : getC (row :: t) none 0 j = row.getD j none := rfl
      rw [h0, h1]
      simp only [boardSum, List.map_cons, List.sum_cons]
      have := rowSum_set row j v hj
      omega
    | succ k =>
      have h0 : setC (row :: t) (k + 1) j v = row :: setC t k j v := rfl
      have h1 : getC (row :: t) none (k + 1) j = getC t none k j := rfl
      rw [h0, h1]
      simp only [boardSum, List.map_cons, List.sum_cons]
      have := ih k j v (Nat.lt_of_succ_lt_succ hi) hj
      simp only [boardSum] at this
      omega

theorem occupiedCount_setC : ∀ (g : List (List (Option Block))) (i j : Nat) (v : Option Block),
    i < g.length → j < (g.getD i []).length →
    occupiedCount (setC g i j v) + cntSome (getC g none i j) = occupiedCount g + cntSome v := by
  intro g
  induction g with
  | nil => intro i j v h _; simp at h
  | cons row t ih =>
    intro i j v hi hj
    cases i with
    | zero =>
      have h0 : setC (row :: t) 0 j v = (row.set j v) :: t := rfl
      have h1 : getC (row :: t) none 0 j = row.getD j none := rfl
      rw [h0, h1]
      simp only [occupiedCount, List.map_cons, List.sum_cons]
      have := rowCnt_set row j v hj
      omega
    | succ k =>
      have h0 : setC (row :: t) (k + 1) j v = row :: setC t k j v := rfl
      have h1 : getC (row :: t) none (k + 1) j = getC t none k j := rfl
      rw [h0, h1]
      simp only [occupiedCount, List.map_cons, List.sum_cons]
      have := ih k j v (Nat.lt_of_succ_lt_succ hi) hj
      simp only [occupiedCount] at this
      omega

theorem row_count_split : ∀ row : List (Option Block),
    row.countP (fun c => c.isSome) + row.countP (fun c => c.isNone) = row.length := by
  intro row
  induction row with
  | nil => rfl
  | cons a t ih => cases a <;> simp [List.countP_cons] <;> omega

theorem occ_add_empty : ∀ (g : List (List (Option Block))) (n : Nat),
    (∀ row ∈ g, row.length = n) → occupiedCount g + emptyCount g = n * g.length := by
  intro g n
  induction g with
  | nil => intro _; simp [occupiedCount, emptyCount]
  | cons row t ih =>
    intro h
    have hr : row.length = n := h row (List.mem_cons_self _ _)
    have ht := ih (fun r hr2 => h r (List.mem_cons_of_mem _ hr2))
    have hs := row_count_split row
    simp only [occupiedCount, emptyCount, List.map_cons, List.sum_cons, List.length_cons] at *
    rw [Nat.mul_succ]
    omega

theorem occupied_zero_of_all_none : ∀ g : List (List (Option Block)),
    (∀ row ∈ g, ∀ c ∈ row, c = none) → occupiedCount g = 0 := by
  intro g h
  simp only [occupiedCount]
  have : ∀ row ∈ g, row.countP (fun c => c.isSome) = 0 := by
    intro row hrow
    rw [List.countP_eq_zero]
    intro c hc
    rw [h row hrow c hc]
    simp
  induction g with
  | nil => rfl
  | cons row t ih =>
    simp only [List.map_cons, List.sum_cons]
    rw [this row (List.mem_cons_self _ _),
      ih (fun r hr => h r (List.mem_cons_of_mem _ hr))
        (fun r hr => this r (List.mem_cons_of_mem _ hr))]

-- ==================== EMPTY-POSITION LEMMAS ====================

theorem mem_empty_positions {g : Grid} {q : Nat × Nat} :
    q ∈ g.empty_positions ↔
      q.1 < g.size ∧ q.2 < g.size ∧ getC g.grid none q.1 q.2 = none := by
  obtain ⟨a, b⟩ := q
  unfold Grid.empty_positions
  simp only [List.mem_flatMap, List.mem_filterMap, List.mem_range]
  constructor
  · rintro ⟨i, hi, j, hj, hq⟩
    by_cases hc : getC g.grid none i j = none
    · rw [if_pos hc] at hq
      obtain ⟨rfl, rfl⟩ : i = a ∧ j = b := by
        have := Option.some.inj hq
        exact ⟨congrArg Prod.fst this, congrArg Prod.snd this⟩
      exact ⟨hi, hj, hc⟩
    · rw [if_neg hc] at hq
      exact Option.noConfusion hq
  · rintro ⟨h1, h2, h3⟩
    exact ⟨a, h1, b, h2, by rw [if_pos h3]⟩

-- ==================== CLAIM C1 ====================

/-- C1: the claim expects each tile to merge at most once and the row to
compact: `[2,2,2,2]` shifted left should give row 0 `= [4,4,0,0]`.  The
code's sweep order (descending for "left") merges pairs into unmoved
neighbours and never re-compacts, so a valid left move on this grid
actually produces row 0 `= [4,0,4,0]` before the spawn.  This theorem
evaluates the code at the claim's own input: the move is reported valid,
`shift_and_merge` returns true, but the merge pass leaves `[4,0,4,0]`,
not the `[4,4,0,0]` the claim states. -/
theorem claim_C1_merge_pass_eval :
    gRow2222.is_valid_move "left" = true ∧
    (gRow2222.mergePass "left").rowValsAt 0 = [4, 0, 4, 0] ∧
    (gRow2222.mergePass "left").rowValsAt 0 ≠ [4, 4, 0, 0] ∧
    ∀ r : List Nat, (gRow2222.shift_and_merge "left" r).1 = true := by
  refine ⟨by decide, by decide, by decide, fun r => ?_⟩
  have hv : gRow2222.is_valid_move "left" = true := by decide
  simp [Grid.shift_and_merge, hv]

-- ==================== CLAIM C2 ====================

/-- C2: the claim expects the triple `[2,2,2,0]` shifted left to merge its
leftmost pair, giving row 0 `= [4,2,0,0]`.  The code's descending sweep
for "left" merges the rightmost pair into its left neighbour instead, so
the merge pass actually leaves row 0 `= [2,4,0,0]`.  This theorem
evaluates the code at the claim's own input. -/
theorem claim_C2_triple_cascade_eval :
    gRow2220.is_valid_move "left" = true ∧
    (gRow2220.mergePass "left").rowValsAt 0 = [2, 4, 0, 0] ∧
    (gRow2220.mergePass "left").rowValsAt 0 ≠ [4, 2, 0, 0] ∧
    ∀ r : List Nat, (gRow2220.shift_and_merge "left" r).1 = true := by
  refine ⟨by decide, by decide, by decide, fun r => ?_⟩
  have hv : gRow2220.is_valid_move "left" = true := by decide
  simp [Grid.shift_and_merge, hv]

-- ==================== CLAIM C3 ====================

/-- C3: locked-move atomicity.  For every grid and every known direction,
when `is_valid_move` is false `shift_and_merge` returns false, leaves the
grid untouched and consumes no random draw (so no tile is spawned); in
particular the row `[2,4,8,16]` admits no horizontal move: both
`is_valid_move` checks report false and both shifts return the grid and
stream unchanged with result false. -/
theorem claim_C3_locked_move_atomicity :
    (∀ (g : Grid) (d : String) (r : List Nat),
      (d = "up" ∨ d = "down" ∨ d = "left" ∨ d = "right") →
      g.is_valid_move d = false → g.shift_and_merge d r = (false, g, r)) ∧
    gRow24816.is_valid_move "left" = false ∧
    gRow24816.is_valid_move "right" = false ∧
    (∀ r : List Nat, gRow24816.shift_and_merge "left" r = (false, gRow24816, r)) ∧
    (∀ r : List Nat, gRow24816.shift_and_merge "right" r = (false, gRow24816, r)) := by
  have gen : ∀ (g : Grid) (d : String) (r : List Nat),
      g.is_valid_move d = false → g.shift_and_merge d r = (false, g, r) := by
    intro g d r h
    simp [Grid.shift_and_merge, h]
  refine ⟨fun g d r _ h => gen g d r h, by decide, by decide,
    fun r => gen _ _ _ (by decide), fun r => gen _ _ _ (by decide)⟩

/-- Witness for C3: the general locked-move statement applied at the
concrete `[2,4,8,16]` grid, direction "left", empty random stream. -/
theorem claim_C3_locked_move_atomicity_witness :
    gRow24816.shift_and_merge "left" [] = (false, gRow24816, []) :=
  claim_C3_locked_move_atomicity.1 gRow24816 "left" []
    (Or.inr (Or.inr (Or.inl rfl))) (by decide)

-- ==================== CLAIM C9 ====================

/-- C9: unknown-direction rejection at the controller.  For every
direction string other than the four known ones, `play_move` reports the
invalid outcome (distinct from both the locked-grid outcome and the moved
outcome) and performs no mutation: the grid and the random stream are
returned unchanged, so nothing slid, merged or spawned. -/
theorem claim_C9_unknown_direction_controller :
    (∀ (g : Grid) (d : String) (r : List Nat),
      d ≠ "up" → d ≠ "down" → d ≠ "left" → d ≠ "right" →
      GameController.play_move g d r = (Outcome.invalid, g, r)) ∧
    Outcome.invalid ≠ Outcome.notPossible ∧ Outcome.invalid ≠ Outcome.moved := by
  refine ⟨fun g d r h1 h2 h3 h4 => ?_, by decide, by decide⟩
  simp [GameController.play_move, h1, h2, h3, h4]

/-- Witness for C9: applied at the concrete string "diagonal". -/
theorem claim_C9_unknown_direction_controller_witness :
    GameController.play_move gRow24816 "diagonal" [] = (Outcome.invalid, gRow24816, []) :=
  claim_C9_unknown_direction_controller.1 gRow24816 "diagonal" []
    (by decide) (by decide) (by decide) (by decide)

-- ==================== CLAIM C8 ====================

/-- C8: spawn on a full grid is a no-op.  If every slot of the grid is
occupied then `spawn_new_tile` returns the grid unchanged and the random
stream unchanged (no draw is consumed for placement or value), and of
course raises no error — the embedding is total. -/
theorem claim_C8_spawn_full_noop :
    ∀ (g : Grid) (r : List Nat),
      (∀ i j, i < g.size → j < g.size → getC g.grid none i j ≠ none) →
      g.spawn_new_tile r = (g, r) := by
  intro g r h
  have heps : g.empty_positions = [] := by
    rw [List.eq_nil_iff_forall_not_mem]
    intro q hq
    obtain ⟨h1, h2, h3⟩ := mem_empty_positions.1 hq
    exact h q.1 q.2 h1 h2 h3
  simp [Grid.spawn_new_tile, heps]

/-- Witness for C8: a fully occupied 1×1 grid. -/
theorem claim_C8_spawn_full_noop_witness :
    (⟨1, [[some ⟨2, (0, 0)⟩]]⟩ : Grid).spawn_new_tile [7, 7] = (⟨1, [[some ⟨2, (0, 0)⟩]]⟩, [7, 7]) :=
  claim_C8_spawn_full_noop _ _ (by
    intro i j hi hj
    obtain rfl : i = 0 := Nat.lt_one_iff.mp hi
    obtain rfl : j = 0 := Nat.lt_one_iff.mp hj
    decide)

-- ==================== CLAIM C10 ====================

/-- C10: directional determinism.  The 4×4 grid whose row 0 holds
`[2,0,2,0]` shifted right is a valid move: `shift_and_merge` returns true
and the merge pass (the board before the single spawn) leaves row 0 equal
to `[0,0,0,4]`. -/
theorem claim_C10_right_move_eval :
    gRow2020.is_valid_move "right" = true ∧
    (gRow2020.mergePass "right").rowValsAt 0 = [0, 0, 0, 4] ∧
    (∀ i, (gRow2020.mergePass "right").rowValsAt (i + 1) = (gRow2020).rowValsAt (i + 1)) ∧
    ∀ r : List Nat, (gRow2020.shift_and_merge "right" r).1 = true := by
  refine ⟨by decide, by decide, fun i => ?_, fun r => ?_⟩
  · match i with
    | 0 => decide
    | 1 => decide
    | 2 => decide
    | k + 3 => rfl
  · have hv : gRow2020.is_valid_move "right" = true := by decide
    simp [Grid.shift_and_merge, hv]

-- ==================== CLAIM C4 (counterexample part) ====================

/-- C4 counterexample: the claim's accounting says each merge of two
tiles of value V changes the board total by −V.  On the grid with row 0
`[2,2,0,0]`, a left move performs exactly one merge of a pair of 2s
(V = 2), so the claim predicts the merge pass lowers the board total from
4 to 2.  In the code the merge doubles the surviving tile and removes the
other, leaving the total unchanged at 4. -/
theorem claim_C4_counterexample :
    boardSum gRow2200.grid = 4 ∧
    gRow2200.is_valid_move "left" = true ∧
    (gRow2200.mergePass "left").rowValsAt 0 = [4, 0, 0, 0] ∧
    boardSum (gRow2200.mergePass "left").grid = boardSum gRow2200.grid ∧
    boardSum (gRow2200.mergePass "left").grid ≠ boardSum gRow2200.grid - 2 := by
  decide

-- ==================== CLAIM C5 (counterexample part) ====================

/-- C5 counterexample: the sliding step never updates a tile's stored
coordinates.  A lone tile stored in slot `(0,1)` with position field
`(0,1)` slides to slot `(0,0)` during a left move, yet after the complete
`shift_and_merge` (spawn included, with a random stream that spawns the
new tile elsewhere) the tile in slot `(0,0)` still carries position
`(0,1)` — the claimed invariant "slot `(i,j)` holds a tile whose position
is `(i,j)`" fails after a move. -/
theorem claim_C5_counterexample :
    getC ((gLoneTile.shift_and_merge "left" [0, 0]).2.1.grid) none 0 0
      = some ⟨2, (0, 1)⟩ ∧
    (Block.mk 2 (0, 1)).position ≠ (0, 0) := by
  decide

-- ==================== GET_NEW_POSITION LEMMAS ====================

theorem gnp_up (i j : Int) : Grid.get_new_position i j "up" = (i - 1, j) := rfl

theorem gnp_down (i j : Int) : Grid.get_new_position i j "down" = (i + 1, j) := by
  simp [Grid.get_new_position]

theorem gnp_left (i j : Int) : Grid.get_new_position i j "left" = (i, j - 1) := by
  simp [Grid.get_new_position]

theorem gnp_right (i j : Int) : Grid.get_new_position i j "right" = (i, j + 1) := by
  simp [Grid.get_new_position]

/-- For the four real directions, the neighbour cell differs from the
current cell (once the guard has ensured both coordinates are
nonnegative). -/
theorem gnp_four_target_ne (d : String)
    (hd : d = "up" ∨ d = "down" ∨ d = "left" ∨ d = "right") (ci cj : Nat)
    (h1 : 0 ≤ (Grid.get_new_position ci cj d).1)
    (h2 : 0 ≤ (Grid.get_new_position ci cj d).2) :
    ¬((Grid.get_new_position ci cj d).1.toNat = ci ∧
      (Grid.get_new_position ci cj d).2.toNat = cj) := by
  rcases hd with rfl | rfl | rfl | rfl
  · rw [gnp_up] at *
    rintro ⟨ha, -⟩
    simp only at ha h1
    omega
  · rw [gnp_down] at *
    rintro ⟨ha, -⟩
    simp only at ha h1
    omega
  · rw [gnp_left] at *
    rintro ⟨-, hb⟩
    simp only at hb h2
    omega
  · rw [gnp_right] at *
    rintro ⟨-, hb⟩
    simp only at hb h2
    omega

-- ==================== SLIDE LOOP INVARIANT ====================

/-- The while loop preserves the board's shape, keeps the walking indices
in bounds, and moves tiles without changing the board total. -/
theorem slideLoop_inv (d : String) (n : Nat) :
    ∀ (fuel : Nat) (grid : List (List (Option Block))) (i j : Nat),
      ShapeB n grid → i < n → j < n →
      ShapeB n (slideLoop d n fuel grid i j).1 ∧
      (slideLoop d n fuel grid i j).2.1 < n ∧
      (slideLoop d n fuel grid i j).2.2 < n ∧
      boardSum (slideLoop d n fuel grid i j).1 = boardSum grid := by
  intro fuel
  induction fuel with
  | zero => intro grid i j hs hi hj; exact ⟨hs, hi, hj, rfl⟩
  | succ m ih =>
    intro grid i j hs hi hj
    rw [slideLoop]
    by_cases hc : (0 ≤ (Grid.get_new_position i j d).1 ∧
        (Grid.get_new_position i j d).1 < (n : Int) ∧
        0 ≤ (Grid.get_new_position i j d).2 ∧
        (Grid.get_new_position i j d).2 < (n : Int)) ∧
        getC grid none (Grid.get_new_position i j d).1.toNat
          (Grid.get_new_position i j d).2.toNat = none
    · rw [if_pos hc]
      obtain ⟨⟨hb1, hb2, hb3, hb4⟩, hnone⟩ := hc
      have htn : (Grid.get_new_position i j d).1.toNat < n := by omega
      have htm : (Grid.get_new_position i j d).2.toNat < n := by omega
      have hil : i < grid.length := by rw [hs.1]; exact hi
      have hjl : j < (grid.getD i []).length := by rw [hs.rowLen hi]; exact hj
      have htnl : (Grid.get_new_position i j d).1.toNat < grid.length := by
        rw [hs.1]; exact htn
      have html : (Grid.get_new_position i j d).2.toNat <
          (grid.getD (Grid.get_new_position i j d).1.toNat []).length := by
        rw [hs.rowLen htn]; exact htm
      have hshape1 : ShapeB n (setC grid (Grid.get_new_position i j d).1.toNat
          (Grid.get_new_position i j d).2.toNat (getC grid none i j)) :=
        shapeB_setC hs _ _ _
      have hshape2 : ShapeB n (setC (setC grid (Grid.get_new_position i j d).1.toNat
          (Grid.get_new_position i j d).2.toNat (getC grid none i j)) i j none) :=
        shapeB_setC hshape1 _ _ _
      have hsum2 : boardSum (setC (setC grid (Grid.get_new_position i j d).1.toNat
          (Grid.get_new_position i j d).2.toNat (getC grid none i j)) i j none) =
          boardSum grid := by
        by_cases heq : (Grid.get_new_position i j d).1.toNat = i ∧
            (Grid.get_new_position i j d).2.toNat = j
        · obtain ⟨he1, he2⟩ := heq
          rw [he1, he2] at hnone ⊢
          rw [hnone]
          have e1 := boardSum_setC grid i j none hil hjl
          rw [hnone] at e1
          have hs1l : i < (setC grid i j (none : Option Block)).length := by
            rw [(shapeB_setC hs i j none).1]; exact hi
          have hs1r : j < ((setC grid i j (none : Option Block)).getD i []).length := by
            rw [(shapeB_setC hs i j none).rowLen hi]; exact hj
          have e2 := boardSum_setC (setC grid i j none) i j none hs1l hs1r
          have hg1 : getC (setC grid i j (none : Option Block)) none i j = none :=
            getC_setC_self hil hjl
          rw [hg1] at e2
          simp [cellVal] at e1 e2
          omega
        · have e1 := boardSum_setC grid (Grid.get_new_position i j d).1.toNat
            (Grid.get_new_position i j d).2.toNat (getC grid none i j) htnl html
          rw [hnone] at e1
          have hs1l : i < (setC grid (Grid.get_new_position i j d).1.toNat
              (Grid.get_new_position i j d).2.toNat (getC grid none i j)).length := by
            rw [hshape1.1]; exact hi
          have hs1r : j < ((setC grid (Grid.get_new_position i j d).1.toNat
              (Grid.get_new_position i j d).2.toNat (getC grid none i j)).getD i []).length := by
            rw [hshape1.rowLen hi]; exact hj
          have e2 := boardSum_setC (setC grid (Grid.get_new_position i j d).1.toNat
            (Grid.get_new_position i j d).2.toNat (getC grid none i j)) i j none hs1l hs1r
          have hg1 : getC (setC grid (Grid.get_new_position i j d).1.toNat
              (Grid.get_new_position i j d).2.toNat (getC grid none i j)) none i j =
              getC grid none i j := by
            apply getC_setC_ne
            intro hcon
            exact heq ⟨hcon.1.symm, hcon.2.symm⟩
          rw [hg1] at e2
          simp [cellVal] at e1 e2
          omega
      obtain ⟨ra, rb, rc, rd2⟩ := ih _ (Grid.get_new_position i j d).1.toNat
        (Grid.get_new_position i j d).2.toNat hshape2 htn htm
      exact ⟨ra, rb, rc, by rw [rd2, hsum2]⟩
    · rw [if_neg hc]
      exact ⟨hs, hi, hj, rfl⟩

-- ==================== PASS-LEVEL SUM CONSERVATION ====================

/-- One iteration of the inner loop preserves the board's shape, the board
total (for the four real directions), and keeps the carried `i` in
bounds. -/
theorem processCell_sum (d : String)
    (hd : d = "up" ∨ d = "down" ∨ d = "left" ∨ d = "right") (n : Nat)
    (st : PassState) (j : Nat) (hs : ShapeB n st.1) (hi : st.2.2 < n) (hj : j < n) :
    ShapeB n (processCell d n st j).1 ∧
    boardSum (processCell d n st j).1 = boardSum st.1 ∧
    (processCell d n st j).2.2 < n := by
  obtain ⟨grid, merged, i⟩ := st
  simp only at hs hi
  obtain ⟨hs1, hci, hcj, hsum1⟩ := slideLoop_inv d n n grid i j hs hi hj
  unfold processCell
  simp only
  split
  · exact ⟨hs, rfl, hi⟩
  · split
    · split
      · split
        · rename_i hbounds pair1 pair2 nb cb heq1 heq2 hmerge
          obtain ⟨hb1, hb2, hb3, hb4⟩ := hbounds
          have htn : (Grid.get_new_position (slideLoop d n n grid i j).2.1
              (slideLoop d n n grid i j).2.2 d).1.toNat < n := by omega
          have htm : (Grid.get_new_position (slideLoop d n n grid i j).2.1
              (slideLoop d n n grid i j).2.2 d).2.toNat < n := by omega
          have hne := gnp_four_target_ne d hd (slideLoop d n n grid i j).2.1
            (slideLoop d n n grid i j).2.2 hb1 hb3
          refine ⟨shapeB_setC (shapeB_setC hs1 _ _ _) _ _ _, ?_, hci⟩
          dsimp only
          have e1 := boardSum_setC (slideLoop d n n grid i j).1
            (Grid.get_new_position (slideLoop d n n grid i j).2.1
              (slideLoop d n n grid i j).2.2 d).1.toNat
            (Grid.get_new_position (slideLoop d n n grid i j).2.1
              (slideLoop d n n grid i j).2.2 d).2.toNat
            (some nb.update_value)
            (by rw [hs1.1]; exact htn) (by rw [hs1.rowLen htn]; exact htm)
          rw [heq1] at e1
          have hsg1 := shapeB_setC hs1
            (Grid.get_new_position (slideLoop d n n grid i j).2.1
              (slideLoop d n n grid i j).2.2 d).1.toNat
            (Grid.get_new_position (slideLoop d n n grid i j).2.1
              (slideLoop d n n grid i j).2.2 d).2.toNat
            (some nb.update_value)
          have e2 := boardSum_setC _ (slideLoop d n n grid i j).2.1
            (slideLoop d n n grid i j).2.2 none
            (by rw [hsg1.1]; exact hci) (by rw [hsg1.rowLen hci]; exact hcj)
          have hg1 : getC (setC (slideLoop d n n grid i j).1
              (Grid.get_new_position (slideLoop d n n grid i j).2.1
                (slideLoop d n n grid i j).2.2 d).1.toNat
              (Grid.get_new_position (slideLoop d n n grid i j).2.1
                (slideLoop d n n grid i j).2.2 d).2.toNat
              (some nb.update_value)) none
              (slideLoop d n n grid i j).2.1 (slideLoop d n n grid i j).2.2 =
              getC (slideLoop d n n grid i j).1 none
              (slideLoop d n n grid i j).2.1 (slideLoop d n n grid i j).2.2 :=
            getC_setC_ne (fun hcon => hne ⟨hcon.1.symm, hcon.2.symm⟩)
          rw [hg1, heq2] at e2
          have hv := hmerge.1
          simp only [cellVal, Block.update_value] at e1 e2 ⊢
          rw [← hsum1]
          omega
        · exact ⟨hs1, hsum1, hci⟩
      · exact ⟨hs1, hsum1, hci⟩
    · exact ⟨hs1, hsum1, hci⟩

/-- Fold invariant principle. -/
theorem foldl_inv {β σ : Type} (P : σ → Prop) (f : σ → β → σ) :
    ∀ (l : List β) (s : σ), (∀ s' x, x ∈ l → P s' → P (f s' x)) → P s → P (l.foldl f s) := by
  intro l
  induction l with
  | nil => intro s _ hs; exact hs
  | cons x t ih =>
    intro s hstep hs
    exact ih (f s x) (fun s' y hy => hstep s' y (List.mem_cons_of_mem _ hy))
      (hstep s x (List.mem_cons_self _ _) hs)

theorem mem_rangeOrder {n : Nat} {d : String} {x : Nat} :
    x ∈ rangeOrder n d ↔ x < n := by
  unfold rangeOrder
  split
  · exact List.mem_range
  · rw [List.mem_reverse]; exact List.mem_range

theorem rangeOrder_nodup (n : Nat) (d : String) : (rangeOrder n d).Nodup := by
  unfold rangeOrder
  split
  · exact List.nodup_range _
  · exact List.nodup_reverse.2 (List.nodup_range _)

/-- The merge pass preserves the board total for the four real directions,
and preserves the board's shape. -/
theorem mergePass_boardSum (g : Grid) (d : String)
    (hd : d = "up" ∨ d = "down" ∨ d = "left" ∨ d = "right") (hs : g.Shape) :
    boardSum (g.mergePass d).grid = boardSum g.grid ∧
    ShapeB g.size (g.mergePass d).grid := by
  unfold Grid.mergePass
  simp only
  have main := foldl_inv
    (fun st : List (List (Option Block)) × List (List Bool) =>
      ShapeB g.size st.1 ∧ boardSum st.1 = boardSum g.grid)
    (fun st i =>
      let s := (rangeOrder g.size d).foldl (processCell d g.size) (st.1, st.2, i)
      (s.1, s.2.1))
    (rangeOrder g.size d)
    (g.grid, List.replicate g.size (List.replicate g.size false))
    (by
      intro st i hi hP
      simp only
      have inner := foldl_inv
        (fun ps : PassState =>
          ShapeB g.size ps.1 ∧ boardSum ps.1 = boardSum g.grid ∧ ps.2.2 < g.size)
        (processCell d g.size)
        (rangeOrder g.size d)
        (st.1, st.2, i)
        (by
          intro ps j hjmem hQ
          obtain ⟨q1, q2, q3⟩ := hQ
          obtain ⟨r1, r2, r3⟩ := processCell_sum d hd g.size ps j q1 q3
            (mem_rangeOrder.1 hjmem)
          exact ⟨r1, by rw [r2, q2], r3⟩)
        ⟨hP.1, hP.2, mem_rangeOrder.1 hi⟩
      exact ⟨inner.1, inner.2.1⟩)
    ⟨hs, rfl⟩
  exact ⟨main.2, main.1⟩

-- ==================== SPAWN LEMMAS AND CLAIM C4 ====================

theorem spawn_noop (g : Grid) (r : List Nat) (h : g.empty_positions = []) :
    g.spawn_new_tile r = (g, r) := by
  simp [Grid.spawn_new_tile, h]

theorem spawn_spec (g : Grid) (r : List Nat) (h : g.empty_positions ≠ []) :
    ∃ x y v r2, (x, y) ∈ g.empty_positions ∧ (v = 2 ∨ v = 4) ∧
      g.spawn_new_tile r = (⟨g.size, setC g.grid x y (some ⟨v, (x, y)⟩)⟩, r2) := by
  have hne : g.empty_positions.isEmpty = false := by
    cases hc : g.empty_positions with
    | nil => exact absurd hc h
    | cons a t => rfl
  have hlen : 0 < g.empty_positions.length := List.length_pos.2 h
  refine ⟨(g.empty_positions.getD ((draw r).1 % g.empty_positions.length) default).1,
    (g.empty_positions.getD ((draw r).1 % g.empty_positions.length) default).2,
    ([2, 4].getD ((draw (draw r).2).1 % 2) default),
    (draw (draw r).2).2, ?_, ?_, ?_⟩
  · rw [Prod.mk.eta]
    exact getD_mem _ _ _ (Nat.mod_lt _ hlen)
  · rcases Nat.mod_two_eq_zero_or_one (draw (draw r).2).1 with hm | hm <;> rw [hm]
    · exact Or.inl rfl
    · exact Or.inr rfl
  · unfold Grid.spawn_new_tile randomChoice BlockFactory.create_block
    simp only [hne, Bool.false_eq_true, if_false]
    simp [randomChoice]

theorem spawn_shape_size (g : Grid) (r : List Nat) (hs : g.Shape) :
    (g.spawn_new_tile r).1.Shape ∧ (g.spawn_new_tile r).1.size = g.size := by
  by_cases h : g.empty_positions = []
  · rw [spawn_noop g r h]; exact ⟨hs, rfl⟩
  · obtain ⟨x, y, v, r2, hmem, hv, heq⟩ := spawn_spec g r h
    rw [heq]
    exact ⟨shapeB_setC hs x y _, rfl⟩

theorem spawn_sum (g : Grid) (r : List Nat) (hs : g.Shape) :
    ∃ v, (v = 0 ∨ v = 2 ∨ v = 4) ∧
      boardSum (g.spawn_new_tile r).1.grid = boardSum g.grid + v := by
  by_cases h : g.empty_positions = []
  · exact ⟨0, Or.inl rfl, by simp [spawn_noop g r h]⟩
  · obtain ⟨x, y, v, r2, hmem, hv, heq⟩ := spawn_spec g r h
    obtain ⟨h1, h2, h3⟩ := mem_empty_positions.1 hmem
    refine ⟨v, Or.inr hv, ?_⟩
    rw [heq]
    dsimp only
    have e := boardSum_setC g.grid x y (some ⟨v, (x, y)⟩)
      (by rw [hs.1]; exact h1)
      (by rw [ShapeB.rowLen hs h1]; exact h2)
    rw [h3] at e
    simp only [cellVal] at e
    omega

/-- C4 (amended): merge conservation as the code actually implements it.
The claim's accounting ("each merge of two tiles of value V removes 2V and
adds back V, net change −V") is wrong: a merge removes one tile of value V
and doubles its equal-valued partner, so the net change in the board total
per merge is 0.  Hence for every well-formed grid and every real
direction, the merge pass preserves the board total exactly, and the
complete move changes the total only by the value of the spawned tile
(0 when nothing spawns, otherwise 2 or 4): post-move sum = pre-move sum +
spawned value. -/
theorem claim_C4_amended_conservation :
    ∀ (g : Grid) (d : String) (r : List Nat),
      g.Shape → (d = "up" ∨ d = "down" ∨ d = "left" ∨ d = "right") →
      boardSum (g.mergePass d).grid = boardSum g.grid ∧
      ∃ v, (v = 0 ∨ v = 2 ∨ v = 4) ∧
        boardSum ((g.shift_and_merge d r).2.1.grid) = boardSum g.grid + v := by
  intro g d r hs hd
  obtain ⟨hsum, hshape⟩ := mergePass_boardSum g d hd hs
  refine ⟨hsum, ?_⟩
  unfold Grid.shift_and_merge
  by_cases hv : g.is_valid_move d = true
  · simp only [hv, if_true]
    have hmshape : (g.mergePass d).Shape := hshape
    obtain ⟨v, hv2, hsum2⟩ := spawn_sum (g.mergePass d) r hmshape
    exact ⟨v, hv2, by rw [hsum2, hsum]⟩
  · simp only [Bool.not_eq_true] at hv
    simp only [hv, Bool.false_eq_true, if_false]
    exact ⟨0, Or.inl rfl, by simp⟩

/-- Witness for C4 (amended): applied at the `[2,2,0,0]` grid, direction
"left", random stream `[0, 0]`. -/
theorem claim_C4_amended_conservation_witness :
    boardSum (gRow2200.mergePass "left").grid = boardSum gRow2200.grid ∧
    ∃ v, (v = 0 ∨ v = 2 ∨ v = 4) ∧
      boardSum ((gRow2200.shift_and_merge "left" [0, 0]).2.1.grid) =
        boardSum gRow2200.grid + v :=
  claim_C4_amended_conservation gRow2200 "left" [0, 0]
    (by constructor <;> decide) (Or.inr (Or.inr (Or.inl rfl)))

-- ==================== UNKNOWN-DIRECTION LEMMAS AND CLAIM C6 ====================

theorem gnp_unknown {d : String} (h1 : d ≠ "up") (h2 : d ≠ "down")
    (h3 : d ≠ "left") (h4 : d ≠ "right") (i j : Int) :
    Grid.get_new_position i j d = (i, j) := by
  unfold Grid.get_new_position
  rw [if_neg h1, if_neg h2, if_neg h3, if_neg h4]

theorem slideLoop_unknown {d : String} (h1 : d ≠ "up") (h2 : d ≠ "down")
    (h3 : d ≠ "left") (h4 : d ≠ "right") (n : Nat) (fuel : Nat)
    (grid : List (List (Option Block))) (i j : Nat) {b : Block}
    (hcell : getC grid none i j = some b) :
    slideLoop d n fuel grid i j = (grid, i, j) := by
  cases fuel with
  | zero => rfl
  | succ m =>
    rw [slideLoop]
    rw [if_neg]
    intro hcon
    rw [gnp_unknown h1 h2 h3 h4] at hcon
    simp only [Int.toNat_natCast] at hcon
    rw [hcell] at hcon
    exact Option.noConfusion hcon.2

theorem processCell_unknown {d : String} (h1 : d ≠ "up") (h2 : d ≠ "down")
    (h3 : d ≠ "left") (h4 : d ≠ "right") (n : Nat)
    (grid : List (List (Option Block))) (merged : List (List Bool)) (i : Nat)
    (j : Nat) (hs : ShapeB n grid) (hi : i < n) (hj : j < n)
    (hm : getC merged false i j = false) :
    (∀ i' j', getC (processCell d n (grid, merged, i) j).1 none i' j' =
      if i' = i ∧ j' = j then none else getC grid none i' j') ∧
    (∀ i' j', ¬(i' = i ∧ j' = j) →
      getC (processCell d n (grid, merged, i) j).2.1 false i' j' =
        getC merged false i' j') ∧
    (processCell d n (grid, merged, i) j).2.2 = i ∧
    ShapeB n (processCell d n (grid, merged, i) j).1 := by
  cases hcell : getC grid none i j with
  | none =>
    simp only [processCell, hcell]
    refine ⟨fun i' j' => ?_, by simp, by simp, hs⟩
    by_cases hij : i' = i ∧ j' = j
    · rw [if_pos hij, hij.1, hij.2, hcell]
    · rw [if_neg hij]
  | some b =>
    have hslide := slideLoop_unknown h1 h2 h3 h4 n n grid i j hcell
    simp only [processCell, hcell, hslide]
    rw [gnp_unknown h1 h2 h3 h4]
    simp only [Int.toNat_natCast]
    rw [if_pos (⟨by omega, by omega, by omega, by omega⟩ :
      (0 : Int) ≤ (i : Int) ∧ (i : Int) < (n : Int) ∧ (0 : Int) ≤ (j : Int) ∧ (j : Int) < (n : Int))]
    simp only [hcell]
    rw [if_pos ⟨trivial, hm⟩]
    have hshape1 : ShapeB n (setC grid i j (some b.update_value)) := shapeB_setC hs _ _ _
    have hshape2 : ShapeB n (setC (setC grid i j (some b.update_value)) i j none) :=
      shapeB_setC hshape1 _ _ _
    refine ⟨fun i' j' => ?_, fun i' j' hij => getC_setC_ne hij, rfl, hshape2⟩
    by_cases hij : i' = i ∧ j' = j
    · rw [if_pos hij, hij.1, hij.2]
      exact getC_setC_self (by rw [hshape1.1]; exact hi) (by rw [hshape1.rowLen hi]; exact hj)
    · rw [if_neg hij, getC_setC_ne hij, getC_setC_ne hij]

theorem innerFold_unknown {d : String} (h1 : d ≠ "up") (h2 : d ≠ "down")
    (h3 : d ≠ "left") (h4 : d ≠ "right") (n : Nat) :
    ∀ (js : List Nat) (grid : List (List (Option Block))) (merged : List (List Bool)) (i : Nat),
      ShapeB n grid → i < n → js.Nodup → (∀ j ∈ js, j < n) →
      (∀ j ∈ js, getC merged false i j = false) →
      (js.foldl (processCell d n) (grid, merged, i)).2.2 = i ∧
      ShapeB n (js.foldl (processCell d n) (grid, merged, i)).1 ∧
      (∀ j ∈ js, getC (js.foldl (processCell d n) (grid, merged, i)).1 none i j = none) ∧
      (∀ i' j', ¬(i' = i ∧ j' ∈ js) →
        getC (js.foldl (processCell d n) (grid, merged, i)).1 none i' j' =
          getC grid none i' j') ∧
      (∀ i' j', ¬(i' = i ∧ j' ∈ js) →
        getC (js.foldl (processCell d n) (grid, merged, i)).2.1 false i' j' =
          getC merged false i' j') := by
  intro js
  induction js with
  | nil =>
    intro grid merged i hs hi _ _ _
    exact ⟨rfl, hs, by simp, fun _ _ _ => rfl, fun _ _ _ => rfl⟩
  | cons j js ih =>
    intro grid merged i hs hi hnd hjs hflags
    have hjn : j < n := hjs j (List.mem_cons_self _ _)
    obtain ⟨pg, pm, pi, pshape⟩ :=
      processCell_unknown h1 h2 h3 h4 n grid merged i j hs hi hjn
        (hflags j (List.mem_cons_self _ _))
    have hjnotin : j ∉ js := (List.nodup_cons.1 hnd).1
    have hndt : js.Nodup := (List.nodup_cons.1 hnd).2
    have heta : processCell d n (grid, merged, i) j =
        ((processCell d n (grid, merged, i) j).1,
         (processCell d n (grid, merged, i) j).2.1, i) :=
      congrArg (fun z => ((processCell d n (grid, merged, i) j).1,
        (processCell d n (grid, merged, i) j).2.1, z)) pi
    have ihx := ih (processCell d n (grid, merged, i) j).1
      (processCell d n (grid, merged, i) j).2.1 i pshape hi hndt
      (fun j' hj' => hjs j' (List.mem_cons_of_mem _ hj'))
      (fun j' hj' => by
        rw [pm i j' (fun hcon => hjnotin (hcon.2 ▸ hj'))]
        exact hflags j' (List.mem_cons_of_mem _ hj'))
    simp only [List.foldl_cons]
    rw [heta]
    refine ⟨ihx.1, ihx.2.1, ?_, ?_, ?_⟩
    · intro j' hj'
      rcases List.mem_cons.1 hj' with rfl | hj2
      · rw [ihx.2.2.2.1 i j' (fun hcon => hjnotin hcon.2), pg i j', if_pos ⟨rfl, rfl⟩]
      · exact ihx.2.2.1 j' hj2
    · intro i' j' hnotin
      have hnotin2 : ¬(i' = i ∧ j' ∈ js) :=
        fun hcon => hnotin ⟨hcon.1, List.mem_cons_of_mem _ hcon.2⟩
      have hne2 : ¬(i' = i ∧ j' = j) :=
        fun hcon => hnotin ⟨hcon.1, hcon.2 ▸ List.mem_cons_self _ _⟩
      rw [ihx.2.2.2.1 i' j' hnotin2, pg i' j', if_neg hne2]
    · intro i' j' hnotin
      have hnotin2 : ¬(i' = i ∧ j' ∈ js) :=
        fun hcon => hnotin ⟨hcon.1, List.mem_cons_of_mem _ hcon.2⟩
      have hne2 : ¬(i' = i ∧ j' = j) :=
        fun hcon => hnotin ⟨hcon.1, hcon.2 ▸ List.mem_cons_self _ _⟩
      rw [ihx.2.2.2.2 i' j' hnotin2, pm i' j' hne2]

theorem outerFold_unknown {d : String} (h1 : d ≠ "up") (h2 : d ≠ "down")
    (h3 : d ≠ "left") (h4 : d ≠ "right") (n : Nat) :
    ∀ (is : List Nat) (st : List (List (Option Block)) × List (List Bool)),
      ShapeB n st.1 → is.Nodup → (∀ i ∈ is, i < n) →
      (∀ i ∈ is, ∀ j, j < n → getC st.2 false i j = false) →
      ShapeB n (is.foldl (fun st i =>
        (((rangeOrder n d).foldl (processCell d n) (st.1, st.2, i)).1,
         ((rangeOrder n d).foldl (processCell d n) (st.1, st.2, i)).2.1)) st).1 ∧
      (∀ i ∈ is, ∀ j, j < n → getC (is.foldl (fun st i =>
        (((rangeOrder n d).foldl (processCell d n) (st.1, st.2, i)).1,
         ((rangeOrder n d).foldl (processCell d n) (st.1, st.2, i)).2.1)) st).1 none i j = none) ∧
      (∀ i' j', i' ∉ is → getC (is.foldl (fun st i =>
        (((rangeOrder n d).foldl (processCell d n) (st.1, st.2, i)).1,
         ((rangeOrder n d).foldl (processCell d n) (st.1, st.2, i)).2.1)) st).1 none i' j' =
        getC st.1 none i' j') ∧
      (∀ i' j', i' ∉ is → getC (is.foldl (fun st i =>
        (((rangeOrder n d).foldl (processCell d n) (st.1, st.2, i)).1,
         ((rangeOrder n d).foldl (processCell d n) (st.1, st.2, i)).2.1)) st).2 false i' j' =
        getC st.2 false i' j') := by
  intro is
  induction is with
  | nil =>
    intro st hs _ _ _
    exact ⟨hs, by simp, fun _ _ _ => rfl, fun _ _ _ => rfl⟩
  | cons i is ih =>
    intro st hs hnd hmem hflags
    have hin : i < n := hmem i (List.mem_cons_self _ _)
    have hinotin : i ∉ is := (List.nodup_cons.1 hnd).1
    have hndt : is.Nodup := (List.nodup_cons.1 hnd).2
    have inner := innerFold_unknown h1 h2 h3 h4 n (rangeOrder n d) st.1 st.2 i hs hin
      (rangeOrder_nodup n d) (fun j hj => mem_rangeOrder.1 hj)
      (fun j hj => hflags i (List.mem_cons_self _ _) j (mem_rangeOrder.1 hj))
    rw [List.foldl_cons]
    have ihx := ih (((rangeOrder n d).foldl (processCell d n) (st.1, st.2, i)).1,
        ((rangeOrder n d).foldl (processCell d n) (st.1, st.2, i)).2.1)
      inner.2.1 hndt (fun i2 h2m => hmem i2 (List.mem_cons_of_mem _ h2m))
      (fun i2 h2m j hj => by
        have hne : ¬(i2 = i ∧ j ∈ rangeOrder n d) :=
          fun hcon => hinotin (hcon.1 ▸ h2m)
        exact (inner.2.2.2.2 i2 j hne).trans
          (hflags i2 (List.mem_cons_of_mem _ h2m) j hj))
    refine ⟨ihx.1, ?_, ?_, ?_⟩
    · intro i0 hi0 j hj
      rcases List.mem_cons.1 hi0 with rfl | hi0t
      · exact (ihx.2.2.1 i0 j hinotin).trans
          (inner.2.2.1 j (mem_rangeOrder.2 hj))
      · exact ihx.2.1 i0 hi0t j hj
    · intro i' j' hnotin
      have hnt : i' ∉ is := fun hc => hnotin (List.mem_cons_of_mem _ hc)
      have hne : ¬(i' = i ∧ j' ∈ rangeOrder n d) :=
        fun hcon => hnotin (hcon.1 ▸ List.mem_cons_self _ _)
      exact (ihx.2.2.1 i' j' hnt).trans (inner.2.2.2.1 i' j' hne)
    · intro i' j' hnotin
      have hnt : i' ∉ is := fun hc => hnotin (List.mem_cons_of_mem _ hc)
      have hne : ¬(i' = i ∧ j' ∈ rangeOrder n d) :=
        fun hcon => hnotin (hcon.1 ▸ List.mem_cons_self _ _)
      exact (ihx.2.2.2 i' j' hnt).trans (inner.2.2.2.2 i' j' hne)

theorem getC_replicate_false (n i j : Nat) :
    getC (List.replicate n (List.replicate n false)) false i j = false := by
  unfold getC
  rw [getD_replicate]
  by_cases hi : i < n
  · rw [if_pos hi, getD_replicate]
    by_cases hj : j < n
    · rw [if_pos hj]
    · rw [if_neg hj]
  · rw [if_neg hi]
    cases j <;> rfl

theorem mergePass_eq (g : Grid) (d : String) :
    g.mergePass d = ⟨g.size, ((rangeOrder g.size d).foldl (fun st i =>
      (((rangeOrder g.size d).foldl (processCell d g.size) (st.1, st.2, i)).1,
       ((rangeOrder g.size d).foldl (processCell d g.size) (st.1, st.2, i)).2.1))
      (g.grid, List.replicate g.size (List.replicate g.size false))).1⟩ := rfl

theorem all_none_rows {g : List (List (Option Block))}
    (h : ∀ i j, getC g none i j = none) : ∀ row ∈ g, ∀ c ∈ row, c = none := by
  intro row hrow c hc
  obtain ⟨⟨i, hilen⟩, hig⟩ := List.mem_iff_get.1 hrow
  obtain ⟨⟨j, hjlen⟩, hjr⟩ := List.mem_iff_get.1 hc
  have hx := h i j
  unfold getC at hx
  rw [getD_lt g i [] hilen, hig, getD_lt row j none hjlen, hjr] at hx
  exact hx

theorem is_valid_unknown (g : Grid) {d : String} (h1 : d ≠ "up") (h2 : d ≠ "down")
    (h3 : d ≠ "left") (h4 : d ≠ "right") (hs : g.Shape) {i0 j0 : Nat} {b : Block}
    (hc : getC g.grid none i0 j0 = some b) : g.is_valid_move d = true := by
  obtain ⟨hi0, hj0⟩ := getC_some_bounds hs hc
  unfold Grid.is_valid_move
  rw [List.any_eq_true]
  refine ⟨i0, List.mem_range.2 hi0, ?_⟩
  rw [List.any_eq_true]
  refine ⟨j0, List.mem_range.2 hj0, ?_⟩
  simp only [hc]
  rw [gnp_unknown h1 h2 h3 h4]
  simp only [Int.toNat_natCast]
  rw [if_pos (⟨by omega, by omega, by omega, by omega⟩ :
    (0 : Int) ≤ (i0 : Int) ∧ (i0 : Int) < (g.size : Int) ∧
    (0 : Int) ≤ (j0 : Int) ∧ (j0 : Int) < (g.size : Int))]
  rw [hc]
  simp

/-- C6: an unknown direction string passed directly to
`Grid.shift_and_merge` wipes the board.  `get_new_position` falls through
to `(i, j)` itself, so `is_valid_move` sees every occupied slot as an
equal-valued "neighbour" of itself and reports the move valid; in the
pass each occupied cell then self-merges — its value is doubled in place
and the very same slot is immediately cleared — so after the pass every
slot is empty; the unconditional spawn then places exactly one tile, and
the call returns true.  Only `GameController.play_move`'s dispatch-table
lookup prevents this at the outer interface (claim C9). -/
theorem claim_C6_unknown_direction_wipes_board :
    ∀ (g : Grid) (d : String) (r : List Nat),
      g.Shape → d ≠ "up" → d ≠ "down" → d ≠ "left" → d ≠ "right" →
      (∃ i j b, getC g.grid none i j = some b) →
      (g.shift_and_merge d r).1 = true ∧
      (∀ i j, getC (g.mergePass d).grid none i j = none) ∧
      occupiedCount ((g.shift_and_merge d r).2.1.grid) = 1 := by
  intro g d r hs h1 h2 h3 h4 hocc
  obtain ⟨i0, j0, b, hc⟩ := hocc
  have hb := getC_some_bounds hs hc
  have hpos : 0 < g.size := Nat.lt_of_le_of_lt (Nat.zero_le _) hb.1
  have hvalid := is_valid_unknown g h1 h2 h3 h4 hs hc
  have outer := outerFold_unknown h1 h2 h3 h4 g.size (rangeOrder g.size d)
    (g.grid, List.replicate g.size (List.replicate g.size false)) hs
    (rangeOrder_nodup _ _) (fun i hi => mem_rangeOrder.1 hi)
    (fun i _ j _ => getC_replicate_false _ _ _)
  have hclear : ∀ i j, getC (g.mergePass d).grid none i j = none := by
    intro i j
    rw [mergePass_eq]
    by_cases hij : i < g.size ∧ j < g.size
    · exact outer.2.1 i (mem_rangeOrder.2 hij.1) j hij.2
    · exact getC_oob outer.1 hij none
  have hmshape : (g.mergePass d).Shape := by
    rw [mergePass_eq]
    exact outer.1
  refine ⟨by simp [Grid.shift_and_merge, hvalid], hclear, ?_⟩
  simp only [Grid.shift_and_merge, hvalid, if_true]
  have hepsne : (g.mergePass d).empty_positions ≠ [] := by
    intro hnil
    have hmem : ((0 : Nat), (0 : Nat)) ∈ (g.mergePass d).empty_positions :=
      mem_empty_positions.2 ⟨hpos, hpos, hclear 0 0⟩
    rw [hnil] at hmem
    exact absurd hmem (List.not_mem_nil _)
  obtain ⟨x, y, v, r2, hmem, hv, heq⟩ := spawn_spec _ r hepsne
  rw [heq]
  dsimp only
  obtain ⟨hx, hy, hcellnone⟩ := mem_empty_positions.1 hmem
  have hzero : occupiedCount (g.mergePass d).grid = 0 :=
    occupied_zero_of_all_none _ (all_none_rows hclear)
  have e := occupiedCount_setC (g.mergePass d).grid x y (some ⟨v, (x, y)⟩)
    (by rw [hmshape.1]; exact hx) (by rw [ShapeB.rowLen hmshape hx]; exact hy)
  rw [hcellnone] at e
  simp [cntSome] at e
  omega

/-- Witness for C6: the `[2,2,0,0]` grid with the direction string
"diag" — the move reports success, the pass clears the board, and exactly
one (spawned) tile remains. -/
theorem claim_C6_unknown_direction_wipes_board_witness :
    (gRow2200.shift_and_merge "diag" []).1 = true ∧
    (∀ i j, getC (gRow2200.mergePass "diag").grid none i j = none) ∧
    occupiedCount ((gRow2200.shift_and_merge "diag" []).2.1.grid) = 1 :=
  claim_C6_unknown_direction_wipes_board gRow2200 "diag" []
    (by constructor <;> decide) (by decide) (by decide) (by decide) (by decide)
    ⟨0, 0, ⟨2, (0, 0)⟩, rfl⟩

-- ==================== CLAIM C7 ====================

theorem getC_replicate_self {α : Type} (n i j : Nat) (a : α) :
    getC (List.replicate n (List.replicate n a)) a i j = a := by
  unfold getC
  rw [getD_replicate]
  by_cases hi : i < n
  · rw [if_pos hi, getD_replicate]
    by_cases hj : j < n
    · rw [if_pos hj]
    · rw [if_neg hj]
  · rw [if_neg hi]
    cases j <;> rfl

/-- C7: initialization.  For every size `n ≥ 2` and every random stream,
the constructor's empty board followed by its two sequential spawn calls
yields exactly 2 occupied slots (each spawn fills a distinct
previously-empty slot), each holding a tile whose value is 2 or 4, and
`n² − 2` empty slots. -/
theorem claim_C7_initialization :
    ∀ (n : Nat) (r : List Nat), 2 ≤ n →
      occupiedCount (Grid.new n r).1.grid = 2 ∧
      emptyCount (Grid.new n r).1.grid = n * n - 2 ∧
      (∀ i j b, getC (Grid.new n r).1.grid none i j = some b →
        b.value = 2 ∨ b.value = 4) := by
  intro n r hn
  have hpos : 0 < n := by omega
  have hs0 : (⟨n, List.replicate n (List.replicate n none)⟩ : Grid).Shape := by
    constructor
    · exact List.length_replicate _ _
    · intro row hr
      rw [List.eq_of_mem_replicate hr]
      exact List.length_replicate _ _
  have hocc0 : occupiedCount (List.replicate n (List.replicate n (none : Option Block))) = 0 := by
    apply occupied_zero_of_all_none
    intro row hr c hc
    rw [List.eq_of_mem_replicate hr] at hc
    exact List.eq_of_mem_replicate hc
  have h0ne : (⟨n, List.replicate n (List.replicate n none)⟩ : Grid).empty_positions ≠ [] := by
    intro hnil
    have hmem : ((0 : Nat), (0 : Nat)) ∈
        (⟨n, List.replicate n (List.replicate n none)⟩ : Grid).empty_positions :=
      mem_empty_positions.2 ⟨hpos, hpos, getC_replicate_self n 0 0 none⟩
    rw [hnil] at hmem
    exact absurd hmem (List.not_mem_nil _)
  obtain ⟨x1, y1, v1, r1, hmem1, hv1, heq1⟩ :=
    spawn_spec ⟨n, List.replicate n (List.replicate n none)⟩ r h0ne
  obtain ⟨hx1, hy1, hcell1⟩ := mem_empty_positions.1 hmem1
  dsimp only at heq1 hx1 hy1 hcell1
  have hs1 : (⟨n, setC (List.replicate n (List.replicate n none)) x1 y1
      (some (Block.mk v1 (x1, y1)))⟩ : Grid).Shape := shapeB_setC hs0 _ _ _
  have hocc1 : occupiedCount (setC (List.replicate n (List.replicate n none)) x1 y1
      (some (Block.mk v1 (x1, y1)))) = 1 := by
    have e := occupiedCount_setC (List.replicate n (List.replicate n none)) x1 y1
      (some (Block.mk v1 (x1, y1))) (by rw [hs0.1]; exact hx1) (by rw [ShapeB.rowLen hs0 hx1]; exact hy1)
    rw [hcell1] at e
    simp [cntSome] at e
    omega
  have h1ne : (⟨n, setC (List.replicate n (List.replicate n none)) x1 y1
      (some (Block.mk v1 (x1, y1)))⟩ : Grid).empty_positions ≠ [] := by
    intro hnil
    by_cases hc0 : x1 = 0 ∧ y1 = 0
    · have hmem : ((0 : Nat), (1 : Nat)) ∈
          (⟨n, setC (List.replicate n (List.replicate n none)) x1 y1
            (some (Block.mk v1 (x1, y1)))⟩ : Grid).empty_positions := by
        apply mem_empty_positions.2
        refine ⟨hpos, show (1 : Nat) < n by omega, ?_⟩
        have : getC (setC (List.replicate n (List.replicate n none)) x1 y1
            (some (Block.mk v1 (x1, y1)))) none 0 1 =
            getC (List.replicate n (List.replicate n none)) none 0 1 :=
          getC_setC_ne (by intro hcon; omega)
        rw [this]
        exact getC_replicate_self n 0 1 none
      rw [hnil] at hmem
      exact absurd hmem (List.not_mem_nil _)
    · have hmem : ((0 : Nat), (0 : Nat)) ∈
          (⟨n, setC (List.replicate n (List.replicate n none)) x1 y1
            (some (Block.mk v1 (x1, y1)))⟩ : Grid).empty_positions := by
        apply mem_empty_positions.2
        refine ⟨hpos, show (0 : Nat) < n from hpos, ?_⟩
        have : getC (setC (List.replicate n (List.replicate n none)) x1 y1
            (some (Block.mk v1 (x1, y1)))) none 0 0 =
            getC (List.replicate n (List.replicate n none)) none 0 0 :=
          getC_setC_ne (by
            intro hcon
            exact hc0 ⟨hcon.1.symm, hcon.2.symm⟩)
        rw [this]
        exact getC_replicate_self n 0 0 none
      rw [hnil] at hmem
      exact absurd hmem (List.not_mem_nil _)
  obtain ⟨x2, y2, v2, r2, hmem2, hv2, heq2⟩ :=
    spawn_spec ⟨n, setC (List.replicate n (List.replicate n none)) x1 y1
      (some (Block.mk v1 (x1, y1)))⟩ r1 h1ne
  obtain ⟨hx2, hy2, hcell2⟩ := mem_empty_positions.1 hmem2
  dsimp only at heq2 hx2 hy2 hcell2
  have hnew : Grid.new n r =
      (⟨n, setC (setC (List.replicate n (List.replicate n none)) x1 y1
        (some (Block.mk v1 (x1, y1)))) x2 y2 (some (Block.mk v2 (x2, y2)))⟩, r2) := by
    unfold Grid.new
    dsimp only
    rw [heq1]
    dsimp only
    exact heq2
  rw [hnew]
  dsimp only
  have hs2 : ShapeB n (setC (setC (List.replicate n (List.replicate n none)) x1 y1
      (some (Block.mk v1 (x1, y1)))) x2 y2 (some (Block.mk v2 (x2, y2)))) := shapeB_setC hs1 _ _ _
  have hocc2 : occupiedCount (setC (setC (List.replicate n (List.replicate n none)) x1 y1
      (some (Block.mk v1 (x1, y1)))) x2 y2 (some (Block.mk v2 (x2, y2)))) = 2 := by
    have e := occupiedCount_setC (setC (List.replicate n (List.replicate n none)) x1 y1
      (some (Block.mk v1 (x1, y1)))) x2 y2 (some (Block.mk v2 (x2, y2)))
      (by rw [hs1.1]; exact hx2) (by rw [ShapeB.rowLen hs1 hx2]; exact hy2)
    rw [hcell2] at e
    simp [cntSome] at e
    omega
  refine ⟨hocc2, ?_, ?_⟩
  · have e := occ_add_empty (setC (setC (List.replicate n (List.replicate n none)) x1 y1
      (some (Block.mk v1 (x1, y1)))) x2 y2 (some (Block.mk v2 (x2, y2)))) n hs2.2
    rw [hs2.1, hocc2] at e
    have h4 : 4 ≤ n * n := by
      calc 4 = 2 * 2 := rfl
      _ ≤ n * n := Nat.mul_le_mul hn hn
    omega
  · intro i j b hcell
    by_cases h2 : i = x2 ∧ j = y2
    · rw [h2.1, h2.2] at hcell
      rw [getC_setC_self (by rw [hs1.1]; exact hx2)
        (by rw [ShapeB.rowLen hs1 hx2]; exact hy2)] at hcell
      have : b = Block.mk v2 (x2, y2) := (Option.some.inj hcell).symm
      rw [this]
      exact hv2
    · rw [getC_setC_ne h2] at hcell
      by_cases h1 : i = x1 ∧ j = y1
      · rw [h1.1, h1.2] at hcell
        rw [getC_setC_self (by rw [hs0.1]; exact hx1)
          (by rw [ShapeB.rowLen hs0 hx1]; exact hy1)] at hcell
        have : b = Block.mk v1 (x1, y1) := (Option.some.inj hcell).symm
        rw [this]
        exact hv1
      · rw [getC_setC_ne h1] at hcell
        rw [getC_replicate_self] at hcell
        exact Option.noConfusion hcell

/-- Witness for C7: a new 2×2 grid on the empty random stream. -/
theorem claim_C7_initialization_witness :
    occupiedCount (Grid.new 2 []).1.grid = 2 ∧
    emptyCount (Grid.new 2 []).1.grid = 2 * 2 - 2 ∧
    (∀ i j b, getC (Grid.new 2 []).1.grid none i j = some b →
      b.value = 2 ∨ b.value = 4) :=
  claim_C7_initialization 2 [] (by omega)

-- ==================== CLAIM C5 (amended part) ====================

theorem posInv_spawn (g : Grid) (r : List Nat) (hs : g.Shape) (hp : PosInv g) :
    PosInv (g.spawn_new_tile r).1 := by
  by_cases h : g.empty_positions = []
  · rw [spawn_noop g r h]; exact hp
  · obtain ⟨x, y, v, r2, hmem, hv, heq⟩ := spawn_spec g r h
    rw [heq]
    obtain ⟨hx, hy, hcell⟩ := mem_empty_positions.1 hmem
    intro i j b hcij
    dsimp only at hcij
    by_cases hij : i = x ∧ j = y
    · rw [hij.1, hij.2] at hcij ⊢
      rw [getC_setC_self (by rw [hs.1]; exact hx)
        (by rw [ShapeB.rowLen hs hx]; exact hy)] at hcij
      have hb : Block.mk v (x, y) = b := Option.some.inj hcij
      rw [← hb]
    · rw [getC_setC_ne hij] at hcij
      exact hp i j b hcij

/-- C5 (amended): position-slot consistency holds for the operations that
write position fields, but not for `shift_and_merge`.  The spawn
operation stores a tile whose position field equals the slot it fills, so
grid construction and `spawn_new_tile` preserve the invariant (and a new
grid satisfies it).  The sliding step of `shift_and_merge`, however,
moves tiles between slots without ever updating their stored coordinates
(see the counterexample theorem), so after a move a tile's position field
may differ from its slot; the field is write-only — the engine never
reads it — so the drift is harmless. -/
theorem claim_C5_amended_positions :
    (∀ (g : Grid) (r : List Nat), g.Shape → PosInv g → PosInv (g.spawn_new_tile r).1) ∧
    (∀ (n : Nat) (r : List Nat), PosInv (Grid.new n r).1) := by
  constructor
  · exact posInv_spawn
  · intro n r
    have hs0 : (⟨n, List.replicate n (List.replicate n none)⟩ : Grid).Shape := by
      constructor
      · exact List.length_replicate _ _
      · intro row hr
        rw [List.eq_of_mem_replicate hr]
        exact List.length_replicate _ _
    have hp0 : PosInv ⟨n, List.replicate n (List.replicate n none)⟩ := by
      intro i j b hc
      dsimp only at hc
      rw [getC_replicate_self] at hc
      exact Option.noConfusion hc
    have h1 := posInv_spawn _ r hs0 hp0
    have hs1 := (spawn_shape_size (⟨n, List.replicate n (List.replicate n none)⟩ : Grid) r hs0).1
    have h2 := posInv_spawn _
      ((⟨n, List.replicate n (List.replicate n none)⟩ : Grid).spawn_new_tile r).2 hs1 h1
    exact h2

/-- Witness for C5 (amended): spawning on an empty 2×2 grid preserves the
position-slot invariant. -/
theorem claim_C5_amended_positions_witness :
    PosInv ((⟨2, List.replicate 2 (List.replicate 2 none)⟩ : Grid).spawn_new_tile [3, 1]).1 :=
  claim_C5_amended_positions.1 ⟨2, List.replicate 2 (List.replicate 2 none)⟩ [3, 1]
    (by
      constructor
      · exact List.length_replicate _ _
      · intro row hr
        rw [List.eq_of_mem_replicate hr]
        exact List.length_replicate _ _)
    (by
      intro i j b hc
      dsimp only at hc
      rw [getC_replicate_self] at hc
      exact Option.noConfusion hc)
